import Mathlib

/-!
Verification of the Spotify playlist downloader (src/app.py) against its
specification. The Python code is shallowly embedded: pure helpers become
Lean functions, the stateful orchestration becomes explicit state passing,
external effects (catalog API, video search, transcode downloads, the file
system) become an explicit environment record, and Python exceptions become
`Except` values at the points where the source can raise.
-/

namespace SpotifyDL

/-- Status values stored in `download_progress["status"]` (src/app.py). -/
inductive Status where
  | idle
  | starting
  | downloading
  | completed
  | cancelled
  | error
deriving DecidableEq, Repr

/-- The `download_progress` dict. The Python dict starts with only the keys
`current`, `total`, `status`; keys added later (`current_track`, `error`,
`successful`) are modelled as `Option` fields that are `none` while absent. -/
structure Progress where
  current : Nat
  total : Nat
  status : Status
  current_track : Option String
  error : Option String
  successful : Option Nat
deriving DecidableEq, Repr

/-- Progress record created in `SpotifyDownloaderAPI.__init__` (line 42):
`{"current": 0, "total": 0, "status": "idle"}`. -/
def initial_download_progress : Progress :=
  { current := 0, total := 0, status := .idle,
    current_track := none, error := none, successful := none }

/-- Progress record installed at the top of `download_worker` (line 247):
`{"current": 0, "total": 0, "status": "starting"}`. -/
def starting_download_progress : Progress :=
  { current := 0, total := 0, status := .starting,
    current_track := none, error := none, successful := none }

/-- A catalog track object: the fields of `track_info['track']` the code
reads (`type`, `artists[i]['name']`, `name`). -/
structure Track where
  type : String
  artists : List String
  name : String
deriving DecidableEq, Repr

/-- One playlist slot as returned by the catalog (`track_info`). The `track`
entry is `None` for non-playable slots, modelled as `Option`. -/
structure TrackInfo where
  track : Option Track
deriving DecidableEq, Repr

/-- External world: the catalog API, the video-platform search, and the
download-and-transcode library. `search` returns `none` when the HTTP
request raises and `some ids` for the list of video ids scraped from the
results page. `download v = true` means `ydl.download` on candidate `v`
returns without raising, producing the target file. `playlistMeta` models
`sp.playlist(id)['name']` and `catalogTracks` the full catalog-side track
sequence of the playlist, with `Except.error` for a raised exception. -/
structure Env where
  search : String → Option (List String)
  download : String → Bool
  playlistMeta : String → Except String String
  catalogTracks : String → Except String (List TrackInfo)

/-! ## sanitize_filename (src/app.py lines 143-146) -/

/-- Python's `string.ascii_letters`. -/
def ascii_letters : List Char :=
  "abcdefghijklmnopqrstuvwxyzABCDEFGHIJKLMNOPQRSTUVWXYZ".data

/-- Python's `string.digits`. -/
def string_digits : List Char :=
  "0123456789".data

/-- The `valid_chars` local of `sanitize_filename`:
`f"-_.() {string.ascii_letters}{string.digits}"`. -/
def valid_chars : List Char :=
  "-_.() ".data ++ ascii_letters ++ string_digits

/-- `sanitize_filename`: `''.join(c for c in filename if c in valid_chars)`. -/
def sanitize_filename (filename : String) : String :=
  String.mk (filename.data.filter (fun c => valid_chars.contains c))

/-! ## extract_playlist_id (src/app.py lines 91-102) -/

/-- Character class `[a-zA-Z0-9]` of the two playlist-id patterns. -/
def isAlnum (c : Char) : Bool :=
  ('a' ≤ c && c ≤ 'z') || ('A' ≤ c && c ≤ 'Z') || ('0' ≤ c && c ≤ '9')

/-- If `s` starts with the literal `lit`, return the rest of `s`. -/
def stripLiteral : List Char → List Char → Option (List Char)
  | [], s => some s
  | _ :: _, [] => none
  | c :: cs, d :: ds => if c = d then stripLiteral cs ds else none

/-- `re.search` for a pattern `<lit>([a-zA-Z0-9]+)`: scan left to right for
the first position where the literal is followed by at least one
alphanumeric character, and capture the maximal alphanumeric run there
(the regex `+` is greedy). Returns the captured group. -/
def searchCapture (lit : List Char) : List Char → Option (List Char)
  | [] => none
  | s@(_ :: rest) =>
    match stripLiteral lit s with
    | some after =>
      let run := after.takeWhile isAlnum
      if run.isEmpty then searchCapture lit rest else some run
    | none => searchCapture lit rest

/-- `extract_playlist_id`: try `r'playlist/([a-zA-Z0-9]+)'` then
`r'playlist:([a-zA-Z0-9]+)'`, returning the first match's group 1. -/
def extract_playlist_id (playlist_url : String) : Option String :=
  match searchCapture "playlist/".data playlist_url.data with
  | some g => some (String.mk g)
  | none =>
    match searchCapture "playlist:".data playlist_url.data with
    | some g => some (String.mk g)
    | none => none

/-! ## get_playlist_tracks (src/app.py lines 148-162)

The catalog call `sp.playlist_tracks(id, limit=100, offset=offset)` returns
the slice `(all.drop offset).take 100` of the playlist's full track
sequence `all`; the loop accumulates pages until one comes back shorter
than `limit`. The recursion below carries `remaining = all.drop offset`
instead of the numeric offset, so advancing the offset by the page size is
`remaining.drop 100`. -/

/-- The accumulated `tracks` list built by the `while True` page loop. -/
def get_playlist_tracks (remaining : List TrackInfo) : List TrackInfo :=
  if _h : (remaining.take 100).length < 100 then remaining.take 100
  else remaining.take 100 ++ get_playlist_tracks (remaining.drop 100)
termination_by remaining.length
decreasing_by
  simp only [List.length_take, List.length_drop] at *
  omega

/-- The successive pages fetched by the same loop, in fetch order. -/
def get_playlist_tracks_pages (remaining : List TrackInfo) : List (List TrackInfo) :=
  if _h : (remaining.take 100).length < 100 then [remaining.take 100]
  else remaining.take 100 :: get_playlist_tracks_pages (remaining.drop 100)
termination_by remaining.length
decreasing_by
  simp only [List.length_take, List.length_drop] at *
  omega

/-! ## download_track (src/app.py lines 164-240)

The file system is a list of existing file paths; `os.path.join(a, b)` is
`a ++ "/" ++ b`. A successful `ydl.download` with the configured
post-processor creates exactly the target `<sanitized>.mp3` file. The
observable effects of one worker call are recorded in `WOut`: the returned
boolean, the updated file system, how many video-platform search requests
were issued, how many downloads actually completed, and which candidate
ids were attempted, in order. -/

/-- Result of one `download_track` call. -/
structure WOut where
  ok : Bool
  fs : List String
  searches : Nat
  downloads : Nat
  attempted : List String
deriving DecidableEq, Repr

/-- The `for video_id in video_ids[:3]` loop body: attempt candidates in
order; the first one whose `ydl.download` does not raise creates the
target file and returns; a raising candidate is logged and skipped. -/
def tryCandidates (env : Env) (fs : List String) (final_file : String) :
    List String → Bool × List String × List String
  | [] => (false, fs, [])
  | v :: rest =>
    if env.download v then (true, final_file :: fs, [v])
    else
      let r := tryCandidates env fs final_file rest
      (r.1, r.2.1, v :: r.2.2)

/-- `download_track`. Control flow of the source, line by line: reject a
`None` or non-`'track'` slot; `track['artists'][0]` raises `IndexError` on
an empty artist list, which the enclosing `except` turns into `False`;
skip (returning `True`) when the target file already exists; search the
video platform, returning `False` when the request raises or yields no
candidate ids; otherwise try the first 3 candidates. -/
def download_track (env : Env) (fs : List String) (track_info : TrackInfo)
    (download_folder : String) : WOut :=
  match track_info.track with
  | none => ⟨false, fs, 0, 0, []⟩
  | some track =>
    if track.type ≠ "track" then ⟨false, fs, 0, 0, []⟩
    else
      match track.artists.head? with
      | none => ⟨false, fs, 0, 0, []⟩
      | some artist_name =>
        let track_name := track.name
        let sanitized_name := sanitize_filename (artist_name ++ " - " ++ track_name)
        let final_file := download_folder ++ "/" ++ sanitized_name ++ ".mp3"
        if final_file ∈ fs then ⟨true, fs, 0, 0, []⟩
        else
          let search_query := track_name ++ " " ++ artist_name ++ " official"
          match env.search search_query with
          | none => ⟨false, fs, 1, 0, []⟩
          | some video_ids =>
            if video_ids.isEmpty then ⟨false, fs, 1, 0, []⟩
            else
              let r := tryCandidates env fs final_file (video_ids.take 3)
              ⟨r.1, r.2.1, 1, if r.1 then 1 else 0, r.2.2⟩

/-- The (artist name, track name) pair of a playable slot: `some` exactly
when `download_track` gets past its preliminary checks without returning
`False` or raising. -/
def playableFields (track_info : TrackInfo) : Option (String × String) :=
  match track_info.track with
  | none => none
  | some track =>
    if track.type ≠ "track" then none
    else
      match track.artists.head? with
      | none => none
      | some artist_name => some (artist_name, track.name)

/-- Target path `download_folder/<sanitize("artist - name")>.mp3` of a slot. -/
def finalFileOf (track_info : TrackInfo) (download_folder : String) : Option String :=
  (playableFields track_info).map
    (fun p => download_folder ++ "/" ++ sanitize_filename (p.1 ++ " - " ++ p.2) ++ ".mp3")

/-- Search query `"<name> <artist> official"` of a slot. -/
def queryOf (track_info : TrackInfo) : Option String :=
  (playableFields track_info).map (fun p => p.2 ++ " " ++ p.1 ++ " official")

/-- Whether the search-and-attempt phase for a slot succeeds. This depends
only on the environment and the slot, not on the file system. -/
def attemptOk (env : Env) (track_info : TrackInfo) : Bool :=
  match queryOf track_info with
  | none => false
  | some q =>
    match env.search q with
    | none => false
    | some video_ids => (video_ids.take 3).any env.download

/-! ## start_download / download_worker / stop_download (src/app.py 242-302)

The background thread body `download_worker` is embedded as a function of
the environment, the stop-request timing, the configured download path and
the playlist URL. Cancellation: `stop_download` clears `is_downloading`
and nothing sets it again while the run is live, so the timing of an
external stop request is an optional boundary index `stopAt`; the check
`if not self.is_downloading` at the top of iteration `i` (0-based) reads
the flag as cleared exactly when `stopAt = some k` with `k ≤ i`. -/

/-- Mutable loop state: the file system plus the locals and progress
fields the per-track loop writes. -/
structure LoopSt where
  fs : List String
  successful : Nat
  workerCalls : Nat
  downloads : Nat
  searches : Nat
  current : Nat
  current_track : Option String
deriving DecidableEq, Repr

/-- How the per-track loop ends: cancelled at a check boundary, fell off
the end of the track list, or a statement in the loop body raised. -/
inductive LoopOut where
  | cancelled (st : LoopSt)
  | finished (st : LoopSt)
  | raised (msg : String) (st : LoopSt)
deriving DecidableEq, Repr

/-- Line 278: `f"{track_info['track']['artists'][0]['name']} - {track_info['track']['name']}"`.
Subscripting `None` raises `TypeError`; `['artists'][0]` on an empty list
raises `IndexError`. Both propagate to the worker's outer `except`. -/
def currentTrackLabel (track_info : TrackInfo) : Except String String :=
  match track_info.track with
  | none => .error "'NoneType' object is not subscriptable"
  | some track =>
    match track.artists.head? with
    | none => .error "list index out of range"
    | some artist_name => .ok (artist_name ++ " - " ++ track.name)

/-- Value of `self.is_downloading` read at check boundary `i`, negated:
`true` when an external `stop_download` has taken effect by boundary `i`. -/
def stopCleared (stopAt : Option Nat) (i : Nat) : Bool :=
  match stopAt with
  | none => false
  | some k => k ≤ i

/-- The `for i, track_info in enumerate(tracks)` loop (lines 272-281). -/
def download_loop (env : Env) (stopAt : Option Nat) (download_folder : String) :
    List TrackInfo → Nat → LoopSt → LoopOut
  | [], _, st => .finished st
  | track_info :: rest, i, st =>
    if stopCleared stopAt i then .cancelled st
    else
      let st1 := { st with current := i + 1 }
      match currentTrackLabel track_info with
      | .error msg => .raised msg st1
      | .ok label =>
        let st2 := { st1 with current_track := some label }
        let w := download_track env st2.fs track_info download_folder
        let st3 := { st2 with
          fs := w.fs,
          workerCalls := st2.workerCalls + 1,
          downloads := st2.downloads + w.downloads,
          searches := st2.searches + w.searches,
          successful := st2.successful + (if w.ok then 1 else 0) }
        download_loop env stopAt download_folder rest (i + 1) st3

/-- Everything observable about one background run: the final progress
record, the final `is_downloading` flag, the final file system, and the
run-wide effect counters. `statusTrace` lists every value assigned to
`download_progress["status"]` during the run, in order. -/
structure RunResult where
  progress : Progress
  is_downloading : Bool
  fs : List String
  workerCalls : Nat
  downloads : Nat
  searches : Nat
  statusTrace : List Status
deriving DecidableEq, Repr

/-- The body of `download_worker` (lines 244-291), including its outer
`try/except`. Note the `return` on an invalid playlist URL (line 254)
leaves `is_downloading` set to `True`: only the normal completion path and
the exception handler clear it, and the cancelled path returns after the
flag was already cleared externally. -/
def download_worker (env : Env) (stopAt : Option Nat) (download_path : String)
    (playlist_url : String) (fs0 : List String) : RunResult :=
  let p0 := starting_download_progress
  match extract_playlist_id playlist_url with
  | none =>
    { progress := { p0 with status := .error, error := some "Invalid playlist URL" },
      is_downloading := true, fs := fs0, workerCalls := 0, downloads := 0,
      searches := 0, statusTrace := [.starting, .error] }
  | some playlist_id =>
    match env.playlistMeta playlist_id with
    | .error e =>
      { progress := { p0 with status := .error, error := some e },
        is_downloading := false, fs := fs0, workerCalls := 0, downloads := 0,
        searches := 0, statusTrace := [.starting, .error] }
    | .ok meta_name =>
      let playlist_name := sanitize_filename meta_name
      let download_folder := download_path ++ "/" ++ playlist_name
      match env.catalogTracks playlist_id with
      | .error e =>
        { progress := { p0 with status := .error, error := some e },
          is_downloading := false, fs := fs0, workerCalls := 0, downloads := 0,
          searches := 0, statusTrace := [.starting, .error] }
      | .ok all =>
        let tracks := get_playlist_tracks all
        let total_tracks := tracks.length
        let p1 := { p0 with total := total_tracks, status := .downloading }
        let st0 : LoopSt :=
          { fs := fs0, successful := 0, workerCalls := 0, downloads := 0,
            searches := 0, current := 0, current_track := none }
        match download_loop env stopAt download_folder tracks 0 st0 with
        | .cancelled st =>
          let pc := { p1 with
            status := Status.cancelled,
            current := st.current,
            current_track := st.current_track }
          { progress := pc,
            is_downloading := false, fs := st.fs, workerCalls := st.workerCalls,
            downloads := st.downloads, searches := st.searches,
            statusTrace := [.starting, .downloading, .cancelled] }
        | .raised msg st =>
          let pe := { p1 with
            status := Status.error,
            error := some msg,
            current := st.current,
            current_track := st.current_track }
          { progress := pe,
            is_downloading := false, fs := st.fs, workerCalls := st.workerCalls,
            downloads := st.downloads, searches := st.searches,
            statusTrace := [.starting, .downloading, .error] }
        | .finished st =>
          let pf := { p1 with
            status := Status.completed,
            current := st.current,
            current_track := st.current_track,
            successful := some st.successful }
          { progress := pf,
            is_downloading := false, fs := st.fs, workerCalls := st.workerCalls,
            downloads := st.downloads, searches := st.searches,
            statusTrace := [.starting, .downloading, .completed] }

/-- Foreground state of `SpotifyDownloaderAPI` touched by `start_download`
and `stop_download`. -/
structure APIState where
  is_downloading : Bool
  download_progress : Progress
  download_path : String
deriving DecidableEq, Repr

/-- JSON-ish results returned to the presentation layer. -/
inductive ApiResult where
  | success (message : String)
  | failure (message : String)
deriving DecidableEq, Repr

/-- `start_download` at its synchronous return boundary (lines 293-297):
the guard, the result value, the unchanged foreground state, and the
number of background threads spawned by the call. -/
def start_download (st : APIState) : ApiResult × APIState × Nat :=
  if ¬ st.is_downloading then (.success "Download started", st, 1)
  else (.failure "Download already in progress", st, 0)

/-- `stop_download` (lines 299-302). -/
def stop_download (st : APIState) : ApiResult × APIState :=
  (.success "Download stopped", { st with is_downloading := false })

/-- The specification's description of the sanitizer's allowed set:
"letters, digits, and the characters `-_.() ` (space included)". -/
def allowedCharSpec (c : Char) : Bool :=
  c.isAlpha || c.isDigit || "-_.() ".data.contains c

/-- Whether line 278's `current_track` label computation succeeds for a slot. -/
def labelOk (track_info : TrackInfo) : Bool :=
  match currentTrackLabel track_info with
  | .ok _ => true
  | .error _ => false

/-! ## Concrete fixtures used to exercise the embedded operations -/

/-- An ordinary playable playlist slot. -/
def trackOK : TrackInfo :=
  ⟨some ⟨"track", ["A"], "S"⟩⟩

/-- Environment whose playlist has one non-playable slot
(`track_info['track'] is None`); searches find nothing. -/
def envNone : Env :=
  { search := fun _ => some [],
    download := fun _ => false,
    playlistMeta := fun _ => .ok "P",
    catalogTracks := fun _ => .ok [⟨none⟩] }

/-- Environment with a two-track playlist of playable slots whose
downloads always fail. -/
def envTwo : Env :=
  { search := fun _ => some [],
    download := fun _ => false,
    playlistMeta := fun _ => .ok "P",
    catalogTracks := fun _ => .ok [trackOK, trackOK] }

/-- Environment used to exercise the candidate loop: four search results,
of which only the second downloads successfully. -/
def envCand : Env :=
  { search := fun _ => some ["a", "b", "c", "d"],
    download := fun v => v == "b",
    playlistMeta := fun _ => .ok "P",
    catalogTracks := fun _ => .ok [] }

/-- Environment exhibiting a sanitized-filename collision: two distinct
tracks, `"A?" - "B"` and `"A" - "B"`, both sanitize to target `A - B.mp3`;
the first track's only candidate fails, the second's succeeds. -/
def envColl : Env :=
  { search := fun q => if q = "B A? official" then some ["v1"] else some ["v2"],
    download := fun v => v == "v2",
    playlistMeta := fun _ => .ok "P",
    catalogTracks := fun _ =>
      .ok [⟨some ⟨"track", ["A?"], "B"⟩⟩, ⟨some ⟨"track", ["A"], "B"⟩⟩] }

/-- Environment for a clean one-track run whose single candidate succeeds. -/
def envOne : Env :=
  { search := fun _ => some ["v1"],
    download := fun _ => true,
    playlistMeta := fun _ => .ok "P",
    catalogTracks := fun _ => .ok [trackOK] }

/-! ## Helper lemmas -/

theorem get_playlist_tracks_eq_of_le :
    ∀ (n : Nat) (ts : List TrackInfo), ts.length ≤ n → get_playlist_tracks ts = ts := by
  intro n
  induction n with
  | zero =>
    intro ts h
    rw [get_playlist_tracks]
    have h0 : ts.length = 0 := Nat.le_zero.mp h
    have hc : (ts.take 100).length < 100 := by simp [h0]
    simp only [hc, dif_pos]
    exact List.take_of_length_le (by omega)
  | succ n ih =>
    intro ts h
    rw [get_playlist_tracks]
    by_cases hc : (ts.take 100).length < 100
    · simp only [hc, dif_pos]
      simp only [List.length_take] at hc
      exact List.take_of_length_le (by omega)
    · simp only [hc, dif_neg, not_false_iff]
      rw [ih (ts.drop 100) (by simp only [List.length_take] at hc; simp; omega)]
      exact List.take_append_drop 100 ts

/-- The page loop returns the full catalog sequence unchanged. -/
theorem get_playlist_tracks_eq (ts : List TrackInfo) : get_playlist_tracks ts = ts :=
  get_playlist_tracks_eq_of_le ts.length ts (Nat.le_refl _)

theorem get_playlist_tracks_pages_join_of_le :
    ∀ (n : Nat) (ts : List TrackInfo), ts.length ≤ n →
      (get_playlist_tracks_pages ts).flatten = ts := by
  intro n
  induction n with
  | zero =>
    intro ts h
    rw [get_playlist_tracks_pages]
    have h0 : ts.length = 0 := Nat.le_zero.mp h
    have hc : (ts.take 100).length < 100 := by simp [h0]
    have ht : ts.take 100 = ts := List.take_of_length_le (by omega)
    simp only [hc, dif_pos]
    simp [ht]
  | succ n ih =>
    intro ts h
    rw [get_playlist_tracks_pages]
    by_cases hc : (ts.take 100).length < 100
    · simp only [hc, dif_pos]
      simp only [List.length_take] at hc
      have ht : ts.take 100 = ts := List.take_of_length_le (by omega)
      simp [ht]
    · simp only [hc, dif_neg, not_false_iff, List.flatten_cons]
      rw [ih (ts.drop 100) (by simp only [List.length_take] at hc; simp; omega)]
      exact List.take_append_drop 100 ts

/-- The pages are concatenated in their original order with nothing else. -/
theorem get_playlist_tracks_pages_join (ts : List TrackInfo) :
    (get_playlist_tracks_pages ts).flatten = ts :=
  get_playlist_tracks_pages_join_of_le ts.length ts (Nat.le_refl _)

theorem char_eq_of_toNat_eq {c d : Char} (h : c.toNat = d.toNat) : c = d :=
  Char.ext (UInt32.ext h)

theorem mem_of_toNat_mem (c : Char) (l : List Char)
    (h : c.toNat ∈ l.map Char.toNat) : c ∈ l := by
  obtain ⟨d, hd, he⟩ := List.mem_map.mp h
  exact (char_eq_of_toNat_eq he) ▸ hd

/-- The source's `valid_chars` set coincides with the specification's
description of the allowed character set. -/
theorem contains_valid_chars_eq (c : Char) :
    valid_chars.contains c = allowedCharSpec c := by
  apply Bool.coe_iff_coe.mp
  constructor
  · intro h
    have hmem : c ∈ valid_chars := List.mem_of_elem_eq_true h
    have hall : valid_chars.all allowedCharSpec = true := by decide
    exact List.all_eq_true.mp hall c hmem
  · intro h
    apply List.elem_eq_true_of_mem
    simp only [allowedCharSpec, Bool.or_eq_true] at h
    rcases h with (ha | hd) | hp
    · have hb : (65 ≤ c.toNat ∧ c.toNat ≤ 90) ∨ (97 ≤ c.toNat ∧ c.toNat ≤ 122) := by
        simp [Char.isAlpha, Char.isUpper, Char.isLower] at ha
        rcases ha with h1 | h1
        · exact Or.inl h1
        · exact Or.inr h1
      apply mem_of_toNat_mem
      rcases hb with ⟨h1, h2⟩ | ⟨h1, h2⟩
      · have h26 : ∀ m ∈ List.range 26, m + 65 ∈ valid_chars.map Char.toNat := by decide
        have hr : c.toNat - 65 ∈ List.range 26 := List.mem_range.mpr (by omega)
        have hm := h26 _ hr
        have he : c.toNat - 65 + 65 = c.toNat := by omega
        rwa [he] at hm
      · have h26 : ∀ m ∈ List.range 26, m + 97 ∈ valid_chars.map Char.toNat := by decide
        have hr : c.toNat - 97 ∈ List.range 26 := List.mem_range.mpr (by omega)
        have hm := h26 _ hr
        have he : c.toNat - 97 + 97 = c.toNat := by omega
        rwa [he] at hm
    · have hb : 48 ≤ c.toNat ∧ c.toNat ≤ 57 := by
        simp [Char.isDigit] at hd
        exact hd
      apply mem_of_toNat_mem
      obtain ⟨h1, h2⟩ := hb
      have h10 : ∀ m ∈ List.range 10, m + 48 ∈ valid_chars.map Char.toNat := by decide
      have hr : c.toNat - 48 ∈ List.range 10 := List.mem_range.mpr (by omega)
      have hm := h10 _ hr
      have he : c.toNat - 48 + 48 = c.toNat := by omega
      rwa [he] at hm
    · have hmem : c ∈ "-_.() ".data := List.mem_of_elem_eq_true hp
      simp only [valid_chars, List.mem_append]
      exact Or.inl (Or.inl hmem)

theorem searchCapture_ne_nil :
    ∀ (lit l : List Char) (g : List Char), searchCapture lit l = some g → g ≠ [] := by
  intro lit l
  induction l with
  | nil =>
    intro g h
    simp [searchCapture] at h
  | cons d rest ih =>
    intro g h
    rw [searchCapture] at h
    cases hs : stripLiteral lit (d :: rest) with
    | some after =>
      rw [hs] at h
      by_cases he : (after.takeWhile isAlnum).isEmpty
      · simp only [he, if_true] at h
        exact ih g h
      · simp only [he, if_false] at h
        have := Option.some.inj h
        rw [← this]
        simpa [List.isEmpty_iff] using he
    | none =>
      rw [hs] at h
      exact ih g h

theorem tryCandidates_spec (env : Env) (fs : List String) (f : String) :
    ∀ l : List String,
      tryCandidates env fs f l =
        (l.any env.download,
         if l.any env.download then f :: fs else fs,
         l.takeWhile (fun v => !env.download v) ++
           (l.dropWhile (fun v => !env.download v)).take 1) := by
  intro l
  induction l with
  | nil => simp [tryCandidates]
  | cons v rest ih =>
    by_cases hv : env.download v
    · simp [tryCandidates, hv, List.takeWhile_cons, List.dropWhile_cons]
    · simp [tryCandidates, hv, ih, List.takeWhile_cons, List.dropWhile_cons]

/-- Normal form of one `download_track` call: the preliminary checks are
`playableFields`, the idempotence check consults the file system, and the
search-plus-candidates phase depends only on the environment and the slot. -/
theorem download_track_eq (env : Env) (fs : List String) (ti : TrackInfo) (folder : String) :
    download_track env fs ti folder =
      match playableFields ti with
      | none => ⟨false, fs, 0, 0, []⟩
      | some p =>
        let final := folder ++ "/" ++ sanitize_filename (p.1 ++ " - " ++ p.2) ++ ".mp3"
        if final ∈ fs then ⟨true, fs, 0, 0, []⟩
        else
          match env.search (p.2 ++ " " ++ p.1 ++ " official") with
          | none => ⟨false, fs, 1, 0, []⟩
          | some ids =>
            if ids.isEmpty then ⟨false, fs, 1, 0, []⟩
            else
              ⟨(ids.take 3).any env.download,
               if (ids.take 3).any env.download then final :: fs else fs,
               1,
               if (ids.take 3).any env.download then 1 else 0,
               (ids.take 3).takeWhile (fun v => !env.download v) ++
                 ((ids.take 3).dropWhile (fun v => !env.download v)).take 1⟩ := by
  cases ti with
  | mk t =>
    cases t with
    | none => rfl
    | some track =>
      simp only [download_track, playableFields]
      by_cases ht : track.type = "track"
      · simp only [ht, ne_eq, not_true_eq_false, if_false]
        cases hh : track.artists.head? with
        | none => simp
        | some a =>
          simp only
          by_cases hf :
              folder ++ "/" ++ sanitize_filename (a ++ " - " ++ track.name) ++ ".mp3" ∈ fs
          · simp [hf]
          · simp only [hf, if_false, if_neg hf]
            cases hq : env.search (track.name ++ " " ++ a ++ " official") with
            | none => simp
            | some ids =>
              simp only
              by_cases he : ids.isEmpty
              · simp [he]
              · simp [he, tryCandidates_spec]
      · simp [ht]

theorem sanitize_filename_data (s : String) :
    (sanitize_filename s).data = s.data.filter allowedCharSpec := by
  show s.data.filter (fun c => valid_chars.contains c) = s.data.filter allowedCharSpec
  exact List.filter_congr (fun c _ => contains_valid_chars_eq c)

theorem mk_ne_empty {g : List Char} (hg : g ≠ []) : String.mk g ≠ "" := by
  intro hcon
  exact hg (congrArg String.data hcon)

/-- Behaviour of `download_worker` on an unparseable playlist URL. -/
theorem download_worker_invalid_url (env : Env) (stopAt : Option Nat) (path url : String)
    (fs0 : List String) (hurl : extract_playlist_id url = none) :
    download_worker env stopAt path url fs0 =
      { progress := {
          current := 0,
          total := 0,
          status := .error,
          current_track := none,
          error := some "Invalid playlist URL",
          successful := none },
        is_downloading := true, fs := fs0, workerCalls := 0, downloads := 0,
        searches := 0, statusTrace := [.starting, .error] } := by
  simp only [download_worker, hurl, starting_download_progress]

/-- If a stop request takes effect at check boundary `k`, the per-track
loop started at index `i ≤ k` cancels, leaving `current` at `k` (or
untouched when the stop lands on the very first check) and having invoked
the worker exactly `k - i` more times. -/
theorem download_loop_cancel (env : Env) (folder : String) (k : Nat) :
    ∀ (ts : List TrackInfo) (i : Nat) (st : LoopSt),
      (∀ ti ∈ ts.take (k - i), labelOk ti = true) →
      i ≤ k → k - i < ts.length →
      ∃ st', download_loop env (some k) folder ts i st = .cancelled st' ∧
        st'.current = (if i < k then k else st.current) ∧
        st'.workerCalls = st.workerCalls + (k - i) := by
  intro ts
  induction ts with
  | nil =>
    intro i st _ _ hlen
    simp at hlen
  | cons ti rest ih =>
    intro i st hlab hik hlen
    simp only [download_loop]
    by_cases hk : k ≤ i
    · have hstop : stopCleared (some k) i = true := by simp [stopCleared, hk]
      rw [hstop]
      have hieq : i = k := Nat.le_antisymm hik hk
      refine ⟨st, by simp, ?_, ?_⟩
      · have : ¬ i < k := by omega
        simp [this]
      · have : k - i = 0 := by omega
        simp [this]
    · have hstop : stopCleared (some k) i = false := by
        simp [stopCleared]
        omega
      rw [hstop]
      simp only [Bool.false_eq_true, if_false]
      have hke : k - i = (k - i - 1) + 1 := by omega
      rw [hke] at hlab
      simp only [List.take_succ_cons, List.mem_cons, forall_eq_or_imp] at hlab
      obtain ⟨hlab1, hlab2⟩ := hlab
      cases hl : currentTrackLabel ti with
      | error e =>
        rw [labelOk, hl] at hlab1
        exact absurd hlab1 (by simp)
      | ok label =>
        simp only [hl]
        obtain ⟨st', hloop, hcur, hwc⟩ := ih (i + 1)
          { fs := (download_track env st.fs ti folder).fs,
            successful := st.successful +
              (if (download_track env st.fs ti folder).ok then 1 else 0),
            workerCalls := st.workerCalls + 1,
            downloads := st.downloads + (download_track env st.fs ti folder).downloads,
            searches := st.searches + (download_track env st.fs ti folder).searches,
            current := i + 1,
            current_track := some label }
          (by
            intro ti' hti'
            exact hlab2 ti' (by
              have : k - (i + 1) = k - i - 1 := by omega
              rw [this] at hti'
              exact hti'))
          (by omega)
          (by simp at hlen; omega)
        refine ⟨st', ?_, ?_, ?_⟩
        · rw [← hloop]
        · rw [hcur]
          have hik2 : i < k := by omega
          simp only [hik2, if_true]
          by_cases h2 : i + 1 < k
          · simp [h2]
          · have : i + 1 = k := by omega
            simp [h2, this]
        · rw [hwc]
          show st.workerCalls + 1 + (k - (i + 1)) = st.workerCalls + (k - i)
          omega

/-- A non-playable slot: the worker fails without touching anything. -/
theorem download_track_none (env : Env) (fs : List String) (folder : String)
    (ti : TrackInfo) (hp : playableFields ti = none) :
    download_track env fs ti folder = ⟨false, fs, 0, 0, []⟩ := by
  rw [download_track_eq, hp]

/-- The idempotence check: a pre-existing target file makes the worker
return true with no search and no download. -/
theorem download_track_exists (env : Env) (fs : List String) (ti : TrackInfo)
    (folder : String) (p : String × String) (hp : playableFields ti = some p)
    (hmem : folder ++ "/" ++ sanitize_filename (p.1 ++ " - " ++ p.2) ++ ".mp3" ∈ fs) :
    download_track env fs ti folder = ⟨true, fs, 0, 0, []⟩ := by
  rw [download_track_eq, hp]
  simp [hmem]

/-- A fresh target: outcome, file-system effect and download count are
determined by `attemptOk`, which does not depend on the file system. -/
theorem download_track_fresh (env : Env) (fs : List String) (ti : TrackInfo)
    (folder : String) (p : String × String) (hp : playableFields ti = some p)
    (hmem : folder ++ "/" ++ sanitize_filename (p.1 ++ " - " ++ p.2) ++ ".mp3" ∉ fs) :
    (download_track env fs ti folder).ok = attemptOk env ti ∧
    (download_track env fs ti folder).fs =
      (if attemptOk env ti
        then (folder ++ "/" ++ sanitize_filename (p.1 ++ " - " ++ p.2) ++ ".mp3") :: fs
        else fs) ∧
    (download_track env fs ti folder).downloads = (if attemptOk env ti then 1 else 0) := by
  have hq : queryOf ti = some (p.2 ++ " " ++ p.1 ++ " official") := by
    simp [queryOf, hp]
  rw [download_track_eq, hp]
  simp only [if_neg hmem]
  cases hs : env.search (p.2 ++ " " ++ p.1 ++ " official") with
  | none => simp [attemptOk, hq, hs]
  | some ids =>
    by_cases hie : ids.isEmpty
    · have hnil : ids = [] := by
        cases ids
        · rfl
        · simp at hie
      subst hnil
      simp [attemptOk, hq, hs]
    · have hie' : ids.isEmpty = false := by
        cases h : ids.isEmpty
        · rfl
        · exact absurd h hie
      simp [attemptOk, hq, hs, hie']

/-- The worker never removes files. -/
theorem download_track_fs_mono (env : Env) (fs : List String) (ti : TrackInfo)
    (folder : String) : ∀ q ∈ fs, q ∈ (download_track env fs ti folder).fs := by
  intro q hq
  cases hp : playableFields ti with
  | none =>
    rw [download_track_none env fs folder ti hp]
    exact hq
  | some p =>
    by_cases hmem : folder ++ "/" ++ sanitize_filename (p.1 ++ " - " ++ p.2) ++ ".mp3" ∈ fs
    · rw [download_track_exists env fs ti folder p hp hmem]
      exact hq
    · obtain ⟨_, hfs, _⟩ := download_track_fresh env fs ti folder p hp hmem
      rw [hfs]
      by_cases ha : attemptOk env ti
      · simp only [ha, if_true]
        exact List.mem_cons_of_mem _ hq
      · simp only [ha, Bool.false_eq_true, if_false]
        exact hq

/-- Replaying the worker against a file system that already contains
everything the first call produced: nothing new is created, nothing is
downloaded, and a first-call success is still a success. -/
theorem download_track_second (env : Env) (folder : String) (ti : TrackInfo)
    (fsA F : List String)
    (hsub : ∀ q ∈ (download_track env fsA ti folder).fs, q ∈ F) :
    (download_track env F ti folder).fs = F ∧
    (download_track env F ti folder).downloads = 0 ∧
    ((download_track env fsA ti folder).ok = true →
      (download_track env F ti folder).ok = true) := by
  cases hp : playableFields ti with
  | none =>
    rw [download_track_none env F folder ti hp, download_track_none env fsA folder ti hp]
    exact ⟨rfl, rfl, fun h => by cases h⟩
  | some p =>
    by_cases hF : folder ++ "/" ++ sanitize_filename (p.1 ++ " - " ++ p.2) ++ ".mp3" ∈ F
    · rw [download_track_exists env F ti folder p hp hF]
      exact ⟨rfl, rfl, fun _ => rfl⟩
    · have hfsA : folder ++ "/" ++ sanitize_filename (p.1 ++ " - " ++ p.2) ++ ".mp3" ∉ fsA := by
        intro hm
        exact hF (hsub _ (download_track_fs_mono env fsA ti folder _ hm))
      obtain ⟨hokA, hfsA2, _⟩ := download_track_fresh env fsA ti folder p hp hfsA
      have hAtt : attemptOk env ti = false := by
        cases hval : attemptOk env ti
        · rfl
        · exfalso
          apply hF
          apply hsub
          rw [hfsA2, hval, if_pos rfl]
          exact List.mem_cons_self _ _
      obtain ⟨hokB, hfsB, hdlB⟩ := download_track_fresh env F ti folder p hp hF
      refine ⟨?_, ?_, ?_⟩
      · rw [hfsB, hAtt]
        simp
      · rw [hdlB, hAtt]
        simp
      · intro hok
        rw [hokA, hAtt] at hok
        cases hok

/-- Files are only added across a finished run of the per-track loop. -/
theorem download_loop_finished_fs_mono (env : Env) (folder : String) :
    ∀ (ts : List TrackInfo) (i : Nat) (st out : LoopSt),
      download_loop env none folder ts i st = .finished out →
      ∀ q ∈ st.fs, q ∈ out.fs := by
  intro ts
  induction ts with
  | nil =>
    intro i st out h q hq
    simp only [download_loop] at h
    cases h
    exact hq
  | cons ti rest ih =>
    intro i st out h q hq
    simp only [download_loop] at h
    rw [show stopCleared none i = false from rfl] at h
    simp only [Bool.false_eq_true, if_false] at h
    cases hl : currentTrackLabel ti with
    | error msg =>
      rw [hl] at h
      simp at h
    | ok label =>
      rw [hl] at h
      exact ih (i + 1) _ out h q (download_track_fs_mono env st.fs ti folder q hq)

/-- Replaying a finished per-track loop against its own final file system:
the loop finishes again, creates no files, performs zero downloads, and
its success count is at least the first pass's. -/
theorem download_loop_second (env : Env) (folder : String) :
    ∀ (ts : List TrackInfo) (iA iB : Nat) (stA stB outA : LoopSt),
      download_loop env none folder ts iA stA = .finished outA →
      stB.fs = outA.fs →
      ∃ outB, download_loop env none folder ts iB stB = .finished outB ∧
        outB.fs = outA.fs ∧
        outB.downloads = stB.downloads ∧
        outA.successful + stB.successful ≤ outB.successful + stA.successful := by
  intro ts
  induction ts with
  | nil =>
    intro iA iB stA stB outA hA hBfs
    simp only [download_loop] at hA
    cases hA
    exact ⟨stB, by simp [download_loop], hBfs, rfl, by omega⟩
  | cons ti rest ih =>
    intro iA iB stA stB outA hA hBfs
    simp only [download_loop] at hA ⊢
    rw [show stopCleared none iA = false from rfl] at hA
    rw [show stopCleared none iB = false from rfl]
    simp only [Bool.false_eq_true, if_false] at hA ⊢
    cases hl : currentTrackLabel ti with
    | error msg =>
      rw [hl] at hA
      simp at hA
    | ok label =>
      rw [hl] at hA
      rw [hBfs]
      have hsub : ∀ q ∈ (download_track env stA.fs ti folder).fs, q ∈ outA.fs := by
        intro q hq
        exact download_loop_finished_fs_mono env folder rest (iA + 1)
          ⟨(download_track env stA.fs ti folder).fs,
            stA.successful + (if (download_track env stA.fs ti folder).ok then 1 else 0),
            stA.workerCalls + 1,
            stA.downloads + (download_track env stA.fs ti folder).downloads,
            stA.searches + (download_track env stA.fs ti folder).searches,
            iA + 1, some label⟩ outA hA q hq
      obtain ⟨hBfs2, hBdl, hBok⟩ := download_track_second env folder ti stA.fs outA.fs hsub
      obtain ⟨outB, hB, h1, h2, h3⟩ := ih (iA + 1) (iB + 1)
        ⟨(download_track env stA.fs ti folder).fs,
          stA.successful + (if (download_track env stA.fs ti folder).ok then 1 else 0),
          stA.workerCalls + 1,
          stA.downloads + (download_track env stA.fs ti folder).downloads,
          stA.searches + (download_track env stA.fs ti folder).searches,
          iA + 1, some label⟩
        ⟨(download_track env outA.fs ti folder).fs,
          stB.successful + (if (download_track env outA.fs ti folder).ok then 1 else 0),
          stB.workerCalls + 1,
          stB.downloads + (download_track env outA.fs ti folder).downloads,
          stB.searches + (download_track env outA.fs ti folder).searches,
          iB + 1, some label⟩
        outA hA hBfs2
      refine ⟨outB, hB, h1, ?_, ?_⟩
      · have h2' : outB.downloads =
            stB.downloads + (download_track env outA.fs ti folder).downloads := h2
        rw [h2', hBdl]
        omega
      · have h3' : outA.successful +
            (stB.successful + (if (download_track env outA.fs ti folder).ok then 1 else 0)) ≤
            outB.successful +
              (stA.successful + (if (download_track env stA.fs ti folder).ok then 1 else 0)) := h3
        have hd : (if (download_track env stA.fs ti folder).ok then 1 else 0 : Nat) ≤
            (if (download_track env outA.fs ti folder).ok then 1 else 0 : Nat) := by
          by_cases hA1 : (download_track env stA.fs ti folder).ok = true
          · rw [if_pos hA1, if_pos (hBok hA1)]
          · rw [if_neg hA1]
            omega
        omega

/-- Unfolding a run that completes: terminal status, successes, counters. -/
theorem download_worker_finished (env : Env) (stopAt : Option Nat) (path url : String)
    (fs0 : List String) (pid nm : String) (all : List TrackInfo) (st : LoopSt)
    (hurl : extract_playlist_id url = some pid)
    (hmeta : env.playlistMeta pid = .ok nm)
    (ht : env.catalogTracks pid = .ok all)
    (hloop : download_loop env stopAt (path ++ "/" ++ sanitize_filename nm) all 0
        ⟨fs0, 0, 0, 0, 0, 0, none⟩ = .finished st) :
    download_worker env stopAt path url fs0 =
      { progress := {
          current := st.current,
          total := all.length,
          status := .completed,
          current_track := st.current_track,
          error := none,
          successful := some st.successful },
        is_downloading := false, fs := st.fs, workerCalls := st.workerCalls,
        downloads := st.downloads, searches := st.searches,
        statusTrace := [.starting, .downloading, .completed] } := by
  simp only [download_worker, hurl, hmeta, ht, get_playlist_tracks_eq, hloop,
    starting_download_progress]

/-- A metadata-fetch failure ends the run with status error. -/
theorem download_worker_meta_error (env : Env) (stopAt : Option Nat) (path url : String)
    (fs0 : List String) (pid e : String)
    (hurl : extract_playlist_id url = some pid)
    (hmeta : env.playlistMeta pid = .error e) :
    (download_worker env stopAt path url fs0).progress.status = .error := by
  simp [download_worker, hurl, hmeta]

/-- A track-list-fetch failure ends the run with status error. -/
theorem download_worker_tracks_error (env : Env) (stopAt : Option Nat) (path url : String)
    (fs0 : List String) (pid nm e : String)
    (hurl : extract_playlist_id url = some pid)
    (hmeta : env.playlistMeta pid = .ok nm)
    (ht : env.catalogTracks pid = .error e) :
    (download_worker env stopAt path url fs0).progress.status = .error := by
  simp [download_worker, hurl, hmeta, ht]

/-- A cancelled loop ends the run with status cancelled. -/
theorem download_worker_cancelled_status (env : Env) (stopAt : Option Nat) (path url : String)
    (fs0 : List String) (pid nm : String) (all : List TrackInfo) (st : LoopSt)
    (hurl : extract_playlist_id url = some pid)
    (hmeta : env.playlistMeta pid = .ok nm)
    (ht : env.catalogTracks pid = .ok all)
    (hloop : download_loop env stopAt (path ++ "/" ++ sanitize_filename nm) all 0
        ⟨fs0, 0, 0, 0, 0, 0, none⟩ = .cancelled st) :
    (download_worker env stopAt path url fs0).progress.status = .cancelled := by
  simp [download_worker, hurl, hmeta, ht, get_playlist_tracks_eq, hloop]

/-- A loop that raised ends the run with status error. -/
theorem download_worker_raised_status (env : Env) (stopAt : Option Nat) (path url : String)
    (fs0 : List String) (pid nm msg : String) (all : List TrackInfo) (st : LoopSt)
    (hurl : extract_playlist_id url = some pid)
    (hmeta : env.playlistMeta pid = .ok nm)
    (ht : env.catalogTracks pid = .ok all)
    (hloop : download_loop env stopAt (path ++ "/" ++ sanitize_filename nm) all 0
        ⟨fs0, 0, 0, 0, 0, 0, none⟩ = .raised msg st) :
    (download_worker env stopAt path url fs0).progress.status = .error := by
  simp [download_worker, hurl, hmeta, ht, get_playlist_tracks_eq, hloop]

theorem attempted_length_le (p : String → Bool) (l : List String) :
    (l.takeWhile p ++ (l.dropWhile p).take 1).length ≤ l.length := by
  rw [List.length_append, List.length_take]
  have h := congrArg List.length (List.takeWhile_append_dropWhile p l)
  rw [List.length_append] at h
  omega

/-! ## Claims -/

/-- C8: for every input string, `sanitize_filename` returns exactly the
characters of the input that belong to the set of ASCII letters, digits
and `-_.() ` (space included), in their original order, with all other
characters dropped and nothing substituted; it is a total function, an
input all of whose characters are disallowed yields the empty string, and
it is idempotent. -/
theorem C8_sanitize_filename_correct :
    (∀ s : String, (sanitize_filename s).data = s.data.filter allowedCharSpec) ∧
    (∀ s : String, (sanitize_filename s).data.Sublist s.data) ∧
    (∀ s : String, (∀ c ∈ s.data, allowedCharSpec c = false) → sanitize_filename s = "") ∧
    (∀ s : String, sanitize_filename (sanitize_filename s) = sanitize_filename s) := by
  refine ⟨sanitize_filename_data, ?_, ?_, ?_⟩
  · intro s
    rw [sanitize_filename_data]
    exact List.filter_sublist s.data
  · intro s h
    apply String.ext
    rw [sanitize_filename_data]
    show s.data.filter allowedCharSpec = []
    rw [List.filter_eq_nil_iff]
    intro c hc
    simp [h c hc]
  · intro s
    apply String.ext
    rw [sanitize_filename_data, sanitize_filename_data, List.filter_filter]
    simp

/-- Witness for C8 at a concrete all-disallowed input. -/
theorem C8_witness :
    (∀ c ∈ ("@#!" : String).data, allowedCharSpec c = false) ∧
    sanitize_filename "@#!" = "" :=
  ⟨by decide, C8_sanitize_filename_correct.2.2.1 "@#!" (by decide)⟩

/-- C9: `extract_playlist_id` tries `playlist/` then `playlist:` followed
by a maximal nonempty alphanumeric run, returns the first matching
pattern's captured group, returns `none` when neither matches, maps the
documented example URL to its id and a non-URL to `none`, and never
returns an empty identifier. -/
theorem C9_extract_playlist_id_correct :
    extract_playlist_id "https://open.spotify.com/playlist/37i9dQZF1DXcBWIGoYBM5M" =
      some "37i9dQZF1DXcBWIGoYBM5M" ∧
    extract_playlist_id "not a url" = none ∧
    (∀ (url : String) (g : List Char),
      searchCapture "playlist/".data url.data = some g →
      extract_playlist_id url = some (String.mk g)) ∧
    (∀ (url s : String), extract_playlist_id url = some s → s ≠ "") := by
  refine ⟨by decide, by decide, ?_, ?_⟩
  · intro url g h
    simp only [extract_playlist_id, h]
  · intro url s h
    simp only [extract_playlist_id] at h
    cases h1 : searchCapture "playlist/".data url.data with
    | some g =>
      rw [h1] at h
      have hg := searchCapture_ne_nil _ _ _ h1
      have hs : some (String.mk g) = some s := h
      rw [← Option.some.inj hs]
      exact mk_ne_empty hg
    | none =>
      rw [h1] at h
      cases h2 : searchCapture "playlist:".data url.data with
      | some g =>
        rw [h2] at h
        have hg := searchCapture_ne_nil _ _ _ h2
        have hs : some (String.mk g) = some s := h
        rw [← Option.some.inj hs]
        exact mk_ne_empty hg
      | none =>
        rw [h2] at h
        exact absurd h (by simp)

/-- Witness for C9: first-pattern capture and non-emptiness at concrete inputs. -/
theorem C9_witness :
    (searchCapture "playlist/".data ("xplaylist/AB" : String).data = some ['A', 'B'] ∧
      extract_playlist_id "xplaylist/AB" = some (String.mk ['A', 'B'])) ∧
    (extract_playlist_id "playlist/AB" = some "AB" ∧ ("AB" : String) ≠ "") :=
  ⟨⟨by decide, C9_extract_playlist_id_correct.2.2.1 "xplaylist/AB" ['A', 'B'] (by decide)⟩,
    ⟨by decide, C9_extract_playlist_id_correct.2.2.2 "playlist/AB" "AB" (by decide)⟩⟩

/-- C4: the page loop returns the catalog sequence in catalog order with no
client-side reordering, and a 250-track playlist is fetched in exactly 3
pages of sizes 100, 100, 50, concatenated in original order, with a result
of length 250. -/
theorem C4_pagination :
    (∀ all : List TrackInfo, get_playlist_tracks all = all) ∧
    (∀ all : List TrackInfo, all.length = 250 →
      (get_playlist_tracks_pages all).map List.length = [100, 100, 50] ∧
      (get_playlist_tracks_pages all).flatten = all ∧
      (get_playlist_tracks all).length = 250) := by
  refine ⟨get_playlist_tracks_eq, ?_⟩
  intro all h250
  refine ⟨?_, get_playlist_tracks_pages_join all, by rw [get_playlist_tracks_eq]; exact h250⟩
  rw [get_playlist_tracks_pages]
  rw [dif_neg (by simp only [List.length_take, h250]; omega)]
  rw [get_playlist_tracks_pages]
  rw [dif_neg (by simp only [List.length_take, List.length_drop, h250]; omega)]
  rw [get_playlist_tracks_pages]
  rw [dif_pos (by simp only [List.length_take, List.length_drop, h250]; omega)]
  simp only [List.map_cons, List.map_nil, List.length_take, List.length_drop, h250]
  decide

/-- Witness for C4 at a concrete 250-slot playlist. -/
theorem C4_witness :
    (List.replicate 250 (TrackInfo.mk none)).length = 250 ∧
    ((get_playlist_tracks_pages (List.replicate 250 (TrackInfo.mk none))).map List.length
        = [100, 100, 50] ∧
      (get_playlist_tracks_pages (List.replicate 250 (TrackInfo.mk none))).flatten
        = List.replicate 250 (TrackInfo.mk none) ∧
      (get_playlist_tracks (List.replicate 250 (TrackInfo.mk none))).length = 250) :=
  ⟨by simp only [List.length_replicate], C4_pagination.2 _ (by simp only [List.length_replicate])⟩

/-- C7: calling start-download while a run is active returns the
already-in-progress error, leaves the foreground state (progress record,
status, path, flag) unchanged and spawns no background unit; when no run
is active it spawns exactly one background unit and immediately returns a
success result, also leaving the foreground state unchanged. -/
theorem C7_start_download_guard :
    (∀ st : APIState, st.is_downloading = true →
      start_download st = (.failure "Download already in progress", st, 0)) ∧
    (∀ st : APIState, st.is_downloading = false →
      start_download st = (.success "Download started", st, 1)) := by
  constructor
  · intro st h
    simp [start_download, h]
  · intro st h
    simp [start_download, h]

/-- Witness for C7 at concrete states. -/
theorem C7_witness :
    start_download ⟨true, initial_download_progress, "dl"⟩ =
      (.failure "Download already in progress", ⟨true, initial_download_progress, "dl"⟩, 0) ∧
    start_download ⟨false, initial_download_progress, "dl"⟩ =
      (.success "Download started", ⟨false, initial_download_progress, "dl"⟩, 1) :=
  ⟨C7_start_download_guard.1 _ rfl, C7_start_download_guard.2 _ rfl⟩

/-- C1 (code-bug evidence): on a playlist whose only slot has
`track_info['track'] = None`, the worker itself returns `false` as the
spec demands, but the run still terminates with status `error` — and with
zero worker invocations — because the orchestrator's `current_track`
label computation on line 278 subscripts the `None` slot before the worker
is ever called, and the raised `TypeError` is caught by the run-level
handler. -/
theorem C1_none_track_aborts_run :
    (download_track envNone [] ⟨none⟩ "/dl/P").ok = false ∧
    (download_worker envNone none "/dl" "playlist/p" []).progress.status = .error ∧
    (download_worker envNone none "/dl" "playlist/p" []).progress.error =
      some "'NoneType' object is not subscriptable" ∧
    (download_worker envNone none "/dl" "playlist/p" []).workerCalls = 0 := by
  refine ⟨rfl, ?_, ?_, ?_⟩ <;>
  · simp only [download_worker, get_playlist_tracks_eq]
    decide

/-- C2: when the stop request takes effect after the worker invocation for
track `k` (1-based; equivalently before the check preceding track `k+1`),
a run over `n > k` tracks ends with status `cancelled`, the progress
record's current index equal to `k`, and exactly `k` worker invocations —
none beyond track `k`. The label hypothesis requires the first `k` slots
to be ones the loop can process (the run reached track `k`'s boundary). -/
theorem C2_cancellation (env : Env) (path url : String) (fs0 : List String)
    (pid nm : String) (all : List TrackInfo) (k : Nat)
    (hurl : extract_playlist_id url = some pid)
    (hmeta : env.playlistMeta pid = .ok nm)
    (ht : env.catalogTracks pid = .ok all)
    (hlab : ∀ ti ∈ all.take k, labelOk ti = true)
    (hk : k < all.length) :
    (download_worker env (some k) path url fs0).progress.status = .cancelled ∧
    (download_worker env (some k) path url fs0).progress.current = k ∧
    (download_worker env (some k) path url fs0).workerCalls = k := by
  obtain ⟨st', hloop, hcur, hwc⟩ :=
    download_loop_cancel env (path ++ "/" ++ sanitize_filename nm) k all 0
      ⟨fs0, 0, 0, 0, 0, 0, none⟩ (by simpa using hlab) (Nat.zero_le k)
      (by simpa using hk)
  have hcu : st'.current = k := by
    rw [hcur]
    by_cases h0 : 0 < k
    · simp [h0]
    · have : k = 0 := by omega
      simp [h0, this]
  have hwc' : st'.workerCalls = 0 + (k - 0) := hwc
  simp only [download_worker, hurl, hmeta, ht, get_playlist_tracks_eq, hloop]
  refine ⟨trivial, hcu, ?_⟩
  rw [hwc']
  omega

/-- Witness for C2: a two-track run stopped after track 1. -/
theorem C2_witness :
    extract_playlist_id "playlist/p" = some "p" ∧
    1 < ([trackOK, trackOK] : List TrackInfo).length ∧
    ((download_worker envTwo (some 1) "/dl" "playlist/p" []).progress.status = .cancelled ∧
      (download_worker envTwo (some 1) "/dl" "playlist/p" []).progress.current = 1 ∧
      (download_worker envTwo (some 1) "/dl" "playlist/p" []).workerCalls = 1) :=
  ⟨by decide, by decide,
    C2_cancellation envTwo "/dl" "playlist/p" [] "p" "P" [trackOK, trackOK] 1
      (by decide) rfl rfl (by decide) (by decide)⟩

/-- C3 (amended): the status only ever holds one of the six enumerated
values, is `idle` at construction, and every run's status assignments are
`starting` followed either directly by terminal `error` (playlist
resolution, metadata fetch or track-list fetch failure) or by
`downloading` and then exactly one terminal state among
completed/cancelled/error; the progress record is never reset to `idle` —
the next run resets it to `starting` instead. -/
theorem C3_amended_status_lifecycle :
    initial_download_progress.status = .idle ∧
    ∀ (env : Env) (stopAt : Option Nat) (path url : String) (fs0 : List String),
      ((download_worker env stopAt path url fs0).statusTrace = [.starting, .error] ∨
        (download_worker env stopAt path url fs0).statusTrace =
          [.starting, .downloading, .completed] ∨
        (download_worker env stopAt path url fs0).statusTrace =
          [.starting, .downloading, .cancelled] ∨
        (download_worker env stopAt path url fs0).statusTrace =
          [.starting, .downloading, .error]) ∧
      Status.idle ∉ (download_worker env stopAt path url fs0).statusTrace := by
  refine ⟨rfl, ?_⟩
  intro env stopAt path url fs0
  simp only [download_worker]
  split
  · exact ⟨Or.inl rfl, by simp⟩
  · split
    · exact ⟨Or.inl rfl, by simp⟩
    · split
      · exact ⟨Or.inl rfl, by simp⟩
      · split
        · exact ⟨Or.inr (Or.inr (Or.inl rfl)), by simp⟩
        · exact ⟨Or.inr (Or.inr (Or.inr rfl)), by simp⟩
        · exact ⟨Or.inr (Or.inl rfl), by simp⟩

/-- Counterexample to C3 as stated: a run given an unparseable playlist
URL assigns `starting` and then terminal `error` without ever passing
through `downloading`, and no run ever assigns `idle`. -/
theorem C3_counterexample_no_downloading_phase :
    (download_worker envTwo none "/dl" "not a url" []).statusTrace = [.starting, .error] ∧
    Status.downloading ∉ (download_worker envTwo none "/dl" "not a url" []).statusTrace ∧
    Status.idle ∉ (download_worker envTwo none "/dl" "not a url" []).statusTrace := by
  have h := download_worker_invalid_url envTwo none "/dl" "not a url" [] (by decide)
  rw [h]
  exact ⟨rfl, by decide, by decide⟩

/-- C6: for a playable slot whose target file is absent, the worker's only
outcomes are true and false (its Lean embedding is a total `Bool`-valued
function, every raising call being caught where the source catches it): it
returns false when the search request fails or yields zero candidate ids,
attempts at most the first 3 candidates in ranked order — stopping right
after the first that downloads successfully, which makes the result true —
and returns false when all 3 fail. -/
theorem C6_download_track_outcomes (env : Env) (fs : List String) (track : Track)
    (artist : String) (rest : List String) (folder : String)
    (htype : track.type = "track")
    (hartists : track.artists = artist :: rest)
    (hnot : folder ++ "/" ++ sanitize_filename (artist ++ " - " ++ track.name) ++ ".mp3" ∉ fs) :
    (env.search (track.name ++ " " ++ artist ++ " official") = none →
      download_track env fs ⟨some track⟩ folder = ⟨false, fs, 1, 0, []⟩) ∧
    (env.search (track.name ++ " " ++ artist ++ " official") = some [] →
      download_track env fs ⟨some track⟩ folder = ⟨false, fs, 1, 0, []⟩) ∧
    (∀ ids : List String,
      env.search (track.name ++ " " ++ artist ++ " official") = some ids → ids ≠ [] →
      ((download_track env fs ⟨some track⟩ folder).ok = (ids.take 3).any env.download ∧
        (download_track env fs ⟨some track⟩ folder).attempted =
          (ids.take 3).takeWhile (fun v => !env.download v) ++
            ((ids.take 3).dropWhile (fun v => !env.download v)).take 1 ∧
        (download_track env fs ⟨some track⟩ folder).attempted.length ≤ 3 ∧
        ((∀ v ∈ ids.take 3, env.download v = false) →
          (download_track env fs ⟨some track⟩ folder).ok = false) ∧
        ((download_track env fs ⟨some track⟩ folder).ok = true →
          ∃ v ∈ ids.take 3, env.download v = true))) := by
  have hp : playableFields ⟨some track⟩ = some (artist, track.name) := by
    simp [playableFields, htype, hartists]
  refine ⟨?_, ?_, ?_⟩
  · intro hs
    rw [download_track_eq, hp]
    simp [if_neg hnot, hs]
  · intro hs
    rw [download_track_eq, hp]
    simp [if_neg hnot, hs]
  · intro ids hs hne
    rw [download_track_eq, hp]
    have hie : ids.isEmpty = false := by
      cases ids
      · exact absurd rfl hne
      · rfl
    simp only [if_neg hnot, hs, hie, Bool.false_eq_true, if_false]
    refine ⟨trivial, trivial, ?_, ?_, ?_⟩
    · calc ((ids.take 3).takeWhile (fun v => !env.download v) ++
            ((ids.take 3).dropWhile (fun v => !env.download v)).take 1).length ≤
          (ids.take 3).length := attempted_length_le _ _
        _ ≤ 3 := by
          rw [List.length_take]
          omega
    · intro hall
      rw [List.any_eq_false]
      intro v hv
      simp [hall v hv]
    · intro hok
      obtain ⟨v, hv, hd⟩ := List.any_eq_true.mp hok
      exact ⟨v, hv, hd⟩

/-- Witness for C6: four candidates of which the second succeeds — the
worker returns true having attempted exactly the first two, in order. -/
theorem C6_witness :
    ("/dl" ++ "/" ++ sanitize_filename ("Artist" ++ " - " ++ "Song") ++ ".mp3") ∉
      ([] : List String) ∧
    (download_track envCand [] ⟨some ⟨"track", ["Artist"], "Song"⟩⟩ "/dl").ok = true ∧
    (download_track envCand [] ⟨some ⟨"track", ["Artist"], "Song"⟩⟩ "/dl").attempted =
      ["a", "b"] := by
  have h := C6_download_track_outcomes envCand [] ⟨"track", ["Artist"], "Song"⟩
    "Artist" [] "/dl" rfl rfl (by decide)
  have h3 := h.2.2 ["a", "b", "c", "d"] rfl (by decide)
  refine ⟨by decide, ?_, ?_⟩
  · rw [h3.1]
    decide
  · rw [h3.2.1]
    decide

/-- C5 (amended): a track whose computed target path already exists makes
the worker return true with no search and no download; and replaying a
completed run against the same destination (the run's own final file
system) under the unchanged environment performs zero downloads, leaves
the file system unchanged, ends `completed` again, and reports a success
count at least that of the first run (equality can fail when two distinct
playlist entries sanitize to the same target file name). -/
theorem C5_amended_idempotent_resume :
    (∀ (env : Env) (fs : List String) (ti : TrackInfo) (folder : String)
        (p : String × String),
      playableFields ti = some p →
      folder ++ "/" ++ sanitize_filename (p.1 ++ " - " ++ p.2) ++ ".mp3" ∈ fs →
      download_track env fs ti folder = ⟨true, fs, 0, 0, []⟩) ∧
    (∀ (env : Env) (path url : String) (fs0 : List String),
      (download_worker env none path url fs0).progress.status = .completed →
      ((download_worker env none path url
          (download_worker env none path url fs0).fs).progress.status = .completed ∧
        (download_worker env none path url
          (download_worker env none path url fs0).fs).downloads = 0 ∧
        (download_worker env none path url
          (download_worker env none path url fs0).fs).fs =
          (download_worker env none path url fs0).fs ∧
        ∃ n1 n2,
          (download_worker env none path url fs0).progress.successful = some n1 ∧
          (download_worker env none path url
            (download_worker env none path url fs0).fs).progress.successful = some n2 ∧
          n1 ≤ n2)) := by
  refine ⟨?_, ?_⟩
  · intro env fs ti folder p hp hmem
    exact download_track_exists env fs ti folder p hp hmem
  · intro env path url fs0 hdone
    cases hurl : extract_playlist_id url with
    | none =>
      rw [download_worker_invalid_url env none path url fs0 hurl] at hdone
      exact absurd hdone (by simp)
    | some pid =>
      cases hmeta : env.playlistMeta pid with
      | error e =>
        rw [download_worker_meta_error env none path url fs0 pid e hurl hmeta] at hdone
        exact absurd hdone (by simp)
      | ok nm =>
        cases ht : env.catalogTracks pid with
        | error e =>
          rw [download_worker_tracks_error env none path url fs0 pid nm e hurl hmeta ht]
            at hdone
          exact absurd hdone (by simp)
        | ok all =>
          cases hloop : download_loop env none (path ++ "/" ++ sanitize_filename nm) all 0
              ⟨fs0, 0, 0, 0, 0, 0, none⟩ with
          | cancelled st =>
            rw [download_worker_cancelled_status env none path url fs0 pid nm all st
              hurl hmeta ht hloop] at hdone
            exact absurd hdone (by simp)
          | raised msg st =>
            rw [download_worker_raised_status env none path url fs0 pid nm msg all st
              hurl hmeta ht hloop] at hdone
            exact absurd hdone (by simp)
          | finished st =>
            have hw1 := download_worker_finished env none path url fs0 pid nm all st
              hurl hmeta ht hloop
            obtain ⟨outB, hloop2, h1, h2, h3⟩ :=
              download_loop_second env (path ++ "/" ++ sanitize_filename nm) all 0 0
                ⟨fs0, 0, 0, 0, 0, 0, none⟩ ⟨st.fs, 0, 0, 0, 0, 0, none⟩ st hloop rfl
            have hw2 := download_worker_finished env none path url st.fs pid nm all outB
              hurl hmeta ht hloop2
            have hfs1 : (download_worker env none path url fs0).fs = st.fs := by
              rw [hw1]
            rw [hfs1, hw1, hw2]
            refine ⟨rfl, ?_, ?_, st.successful, outB.successful, rfl, rfl, ?_⟩
            · show outB.downloads = 0
              have h2' : outB.downloads = (0 : Nat) := h2
              exact h2'
            · show outB.fs = st.fs
              exact h1
            · have h3' : st.successful + 0 ≤ outB.successful + 0 := h3
              omega

/-- Witness for C5 at a clean one-track environment: the first run
completes, and the replay completes with zero downloads and the same
(here: equal) success count; the skip branch fires on the pre-existing
file. -/
theorem C5_witness :
    ((download_worker envOne none "/dl" "playlist/p" []).progress.status = .completed) ∧
    ((download_worker envOne none "/dl" "playlist/p"
        (download_worker envOne none "/dl" "playlist/p" []).fs).progress.status =
          .completed ∧
      (download_worker envOne none "/dl" "playlist/p"
        (download_worker envOne none "/dl" "playlist/p" []).fs).downloads = 0 ∧
      (download_worker envOne none "/dl" "playlist/p"
        (download_worker envOne none "/dl" "playlist/p" []).fs).fs =
        (download_worker envOne none "/dl" "playlist/p" []).fs ∧
      ∃ n1 n2,
        (download_worker envOne none "/dl" "playlist/p" []).progress.successful = some n1 ∧
        (download_worker envOne none "/dl" "playlist/p"
          (download_worker envOne none "/dl" "playlist/p" []).fs).progress.successful =
            some n2 ∧
        n1 ≤ n2) ∧
    (playableFields trackOK = some ("A", "S") ∧
      download_track envOne ["/dl/P" ++ "/" ++ sanitize_filename ("A" ++ " - " ++ "S")
        ++ ".mp3"] trackOK "/dl/P" =
        ⟨true, ["/dl/P" ++ "/" ++ sanitize_filename ("A" ++ " - " ++ "S") ++ ".mp3"],
          0, 0, []⟩) :=
  ⟨by simp only [download_worker, get_playlist_tracks_eq]; decide,
    C5_amended_idempotent_resume.2 envOne "/dl" "playlist/p" []
      (by simp only [download_worker, get_playlist_tracks_eq]; decide),
    by decide,
    C5_amended_idempotent_resume.1 envOne
      ["/dl/P" ++ "/" ++ sanitize_filename ("A" ++ " - " ++ "S") ++ ".mp3"]
      trackOK "/dl/P" ("A", "S") (by decide) (by decide)⟩

/-- Counterexample to C5 as stated: two distinct tracks, `"A?" - "B"` and
`"A" - "B"`, sanitize to the same target `A - B.mp3`; in the first run the
first track fails and the second succeeds (success count 1), while the
second run finds the shared file already present for both slots and
reports success count 2 — the success counts of the two runs differ even
though the second run performs zero downloads and completes. -/
theorem C5_counterexample_sanitized_collision :
    (download_worker envColl none "/dl" "playlist/p" []).progress.status = .completed ∧
    (download_worker envColl none "/dl" "playlist/p" []).progress.successful = some 1 ∧
    (download_worker envColl none "/dl" "playlist/p"
        (download_worker envColl none "/dl" "playlist/p" []).fs).progress.successful =
      some 2 ∧
    (download_worker envColl none "/dl" "playlist/p"
        (download_worker envColl none "/dl" "playlist/p" []).fs).downloads = 0 ∧
    (download_worker envColl none "/dl" "playlist/p"
        (download_worker envColl none "/dl" "playlist/p" []).fs).progress.successful ≠
      (download_worker envColl none "/dl" "playlist/p" []).progress.successful := by
  refine ⟨?_, ?_, ?_, ?_, ?_⟩ <;>
  · simp only [download_worker, get_playlist_tracks_eq]
    decide

/-- C10: stop-download always returns a success result and its only effect
is clearing the `is_downloading` flag; the progress record and the
configured download path are untouched, so calling it with no active run
is a harmless no-op that still reports success. -/
theorem C10_stop_download_frame (st : APIState) :
    (stop_download st).1 = .success "Download stopped" ∧
    (stop_download st).2.is_downloading = false ∧
    (stop_download st).2.download_progress = st.download_progress ∧
    (stop_download st).2.download_path = st.download_path :=
  ⟨rfl, rfl, rfl, rfl⟩

end SpotifyDL
